import Mathlib

/-
Verification development for the DB_Migration repository (two near-identical
ETL pipeline scripts migrating a relational employees dataset into a document
store).

The embedding models:
  * `src/DB_Migration/pipeline.py`: `DataTransformer.convert_date`,
    `DataTransformer.transform_employee`, the aggregation loop in `main`,
    and `MongoLoader.load_collection`;
  * `src/pipeline.py`: `DataTransformer.transform_date`,
    `DataTransformer.transform_employee` (the flat variant),
    `MongoDBLoader.insert_employees`, the employee dict built in
    `ETLPipeline.transform`, and the exit behaviour of `ETLPipeline.run`.

Fallible Python code (functions that may raise) is embedded as
`Except String`; the string is a stand-in for the exception message.
-/

namespace DBMigration

/-- Model of the Python values that can sit in a date-typed field of a row:
`None`, a string, or an already-parsed `datetime.date`/`datetime.datetime`
(collapsed to one constructor holding year/month/day). -/
inductive Value where
  | vnone : Value
  | vstr (s : String) : Value
  | vdate (y m d : Nat) : Value
deriving DecidableEq, Repr

/-- Python truthiness of the modelled values: `None` and the empty string are
falsy, everything else truthy. -/
def Value.truthy : Value → Bool
  | .vnone => false
  | .vstr s => !(s.data.isEmpty)
  | .vdate _ _ _ => true

/-- Split a character list at each dash, keeping empty components (the
behaviour of splitting a string on a single-character separator). -/
def splitDash : List Char → List (List Char)
  | [] => [[]]
  | c :: cs =>
    let rest := splitDash cs
    if c = '-' then [] :: rest
    else
      match rest with
      | [] => [[c]]
      | g :: gs => (c :: g) :: gs

/-- A non-empty all-digit character list read as a decimal number. -/
def digitsToNat (cs : List Char) : Option Nat :=
  if !cs.isEmpty && cs.all Char.isDigit then
    some (cs.foldl (fun n c => n * 10 + (c.toNat - 48)) 0)
  else none

/-- Models `datetime.datetime.strptime(s, "%Y-%m-%d")`: the string must be
three dash-separated decimal components with the month in 1..12 and the day in
1..31; otherwise parsing fails (a `ValueError` in Python). Day-of-month
validity per month is not modelled; no claim depends on it. -/
def parseYMD (s : String) : Option (Nat × Nat × Nat) :=
  match splitDash s.data with
  | [ys, ms, ds] =>
    match digitsToNat ys, digitsToNat ms, digitsToNat ds with
    | some y, some m, some d =>
      if 1 ≤ m ∧ m ≤ 12 ∧ 1 ≤ d ∧ d ≤ 31 then some (y, m, d) else none
    | _, _, _ => none
  | _ => none

/-- `DataTransformer.convert_date` from `src/DB_Migration/pipeline.py`:
returns the value unchanged when it is already a date/datetime, parses a
string with `strptime(date_str, "%Y-%m-%d")`, and otherwise (including on
`None`) the `strptime` call raises; the `except` clause logs and re-raises. -/
def convert_date (date_str : Value) : Except String Value :=
  match date_str with
  | .vdate y m d => .ok (.vdate y m d)
  | .vstr s =>
    match parseYMD s with
    | some (y, m, d) => .ok (.vdate y m d)
    | none => .error "ValueError"
  | .vnone => .error "TypeError"

/-- `DataTransformer.transform_date` from `src/pipeline.py`:
`datetime.strptime(date_str, "%Y-%m-%d") if date_str else None`, with every
exception caught and turned into `None`. A falsy input gives `None`; a
non-string truthy input makes `strptime` raise `TypeError`, which is caught,
so it also gives `None`. -/
def transform_date (date_str : Value) : Value :=
  if date_str.truthy then
    match date_str with
    | .vstr s =>
      match parseYMD s with
      | some (y, m, d) => .vdate y m d
      | none => .vnone
    | _ => .vnone
  else .vnone

/-- A row of the `employees` table (scalar fields used by the transformers). -/
structure EmployeeRow where
  emp_no : Nat
  birth_date : Value
  first_name : String
  last_name : String
  gender : String
  hire_date : Value
deriving DecidableEq, Repr

/-- A row of the `dept_emp` table. -/
structure DeptEmpRow where
  emp_no : Nat
  dept_no : String
  from_date : Value
  to_date : Value
deriving DecidableEq, Repr

/-- A row of the `salaries` table. -/
structure SalaryRow where
  emp_no : Nat
  salary : Int
  from_date : Value
  to_date : Value
deriving DecidableEq, Repr

/-- A row of the `titles` table. -/
structure TitleRow where
  emp_no : Nat
  title : String
  from_date : Value
  to_date : Value
deriving DecidableEq, Repr

/-- A row of the `dept_manager` table. -/
structure DeptManagerRow where
  emp_no : Nat
  dept_no : String
  from_date : Value
  to_date : Value
deriving DecidableEq, Repr

/-- A row of the `departments` table. -/
structure DepartmentRow where
  dept_no : String
  dept_name : String
deriving DecidableEq, Repr

/-- An entry of the embedded `departments` array of an output document. -/
structure DeptEntry where
  dept_no : String
  dept_name : String
  from_date : Value
  to_date : Value
deriving DecidableEq, Repr

/-- An entry of the embedded `salaries` array of an output document. -/
structure SalaryEntry where
  salary : Int
  from_date : Value
  to_date : Value
deriving DecidableEq, Repr

/-- An entry of the embedded `titles` array of an output document. -/
structure TitleEntry where
  title : String
  from_date : Value
  to_date : Value
deriving DecidableEq, Repr

/-- The embedded `management` sub-document of an output document. -/
structure MgmtEntry where
  dept_no : String
  from_date : Value
  to_date : Value
deriving DecidableEq, Repr

/-- The denormalized employee document produced by
`DataTransformer.transform_employee` in `src/DB_Migration/pipeline.py`. -/
structure EmpDoc where
  emp_no : Nat
  birth_date : Value
  first_name : String
  last_name : String
  gender : String
  hire_date : Value
  departments : List DeptEntry
  salaries : List SalaryEntry
  titles : List TitleEntry
  management : Option MgmtEntry
deriving DecidableEq, Repr

/-- The `departments_lookup` dict built in `main`
(`{dept['dept_no']: dept for dept in departments}`): a later row with the same
`dept_no` overwrites an earlier one, so lookup returns the last matching row. -/
def departments_lookup (departments : List DepartmentRow) (dn : String) :
    Option DepartmentRow :=
  departments.reverse.find? (fun d => d.dept_no == dn)

/-- Sequential effectful map over `Except`, modelling a Python `for` loop that
appends one mapped element per iteration and aborts at the first raised
exception. -/
def mapE (f : α → Except String β) : List α → Except String (List β)
  | [] => .ok []
  | x :: xs =>
    match f x with
    | .error e => .error e
    | .ok y =>
      match mapE f xs with
      | .error e => .error e
      | .ok ys => .ok (y :: ys)

/-- Body of the dept_emp embedding loop of `transform_employee`:
`departments_lookup.get(dept_no, {'dept_no': dept_no, 'dept_name': 'Unknown'})`
then one entry with converted dates. -/
def map_dept_entry (departments : List DepartmentRow) (de : DeptEmpRow) :
    Except String DeptEntry :=
  let department := (departments_lookup departments de.dept_no).getD
    { dept_no := de.dept_no, dept_name := "Unknown" }
  match convert_date de.from_date with
  | .error e => .error e
  | .ok fd =>
    match convert_date de.to_date with
    | .error e => .error e
    | .ok td =>
      .ok { dept_no := department.dept_no, dept_name := department.dept_name,
            from_date := fd, to_date := td }

/-- Body of the salary embedding loop of `transform_employee`. -/
def map_salary_entry (sal : SalaryRow) : Except String SalaryEntry :=
  match convert_date sal.from_date with
  | .error e => .error e
  | .ok fd =>
    match convert_date sal.to_date with
    | .error e => .error e
    | .ok td => .ok { salary := sal.salary, from_date := fd, to_date := td }

/-- Body of the title embedding loop of `transform_employee`; `to_date` is
only converted when truthy (`... if tit['to_date'] else None`). -/
def map_title_entry (tit : TitleRow) : Except String TitleEntry :=
  match convert_date tit.from_date with
  | .error e => .error e
  | .ok fd =>
    match (if tit.to_date.truthy then convert_date tit.to_date else .ok .vnone) with
    | .error e => .error e
    | .ok td => .ok { title := tit.title, from_date := fd, to_date := td }

/-- The managerial embedding of `transform_employee`: `if dept_managers:` take
`dept_managers[0]` only, otherwise leave `management` as `None`. -/
def map_management : List DeptManagerRow → Except String (Option MgmtEntry)
  | [] => .ok none
  | mgr :: _ =>
    match convert_date mgr.from_date with
    | .error e => .error e
    | .ok fd =>
      match convert_date mgr.to_date with
      | .error e => .error e
      | .ok td =>
        .ok (some { dept_no := mgr.dept_no, from_date := fd, to_date := td })

/-- `DataTransformer.transform_employee` from `src/DB_Migration/pipeline.py`:
converts the scalar dates, then embeds department, salary, title and
managerial data in that order; the first raised conversion error aborts the
whole row (the `except` clause logs and re-raises). -/
def transform_employee (employee : EmployeeRow) (dept_emps : List DeptEmpRow)
    (dept_managers : List DeptManagerRow) (salaries : List SalaryRow)
    (titles : List TitleRow) (departments : List DepartmentRow) :
    Except String EmpDoc :=
  match convert_date employee.birth_date with
  | .error e => .error e
  | .ok bd =>
    match convert_date employee.hire_date with
    | .error e => .error e
    | .ok hd =>
      match mapE (map_dept_entry departments) dept_emps with
      | .error e => .error e
      | .ok ds =>
        match mapE map_salary_entry salaries with
        | .error e => .error e
        | .ok ss =>
          match mapE map_title_entry titles with
          | .error e => .error e
          | .ok ts =>
            match map_management dept_managers with
            | .error e => .error e
            | .ok mg =>
              .ok { emp_no := employee.emp_no, birth_date := bd,
                    first_name := employee.first_name,
                    last_name := employee.last_name,
                    gender := employee.gender, hire_date := hd,
                    departments := ds, salaries := ss, titles := ts,
                    management := mg }

/-- The per-employee lookup `xxx_by_emp.get(emp_no, [])` in `main`: the
`setdefault`-built index maps each `emp_no` to the source-order list of its
rows, which is exactly the filter of the table by that `emp_no`. Combined with
`transform_employee` this is one iteration of the aggregation loop. -/
def transform_for (dept_emp : List DeptEmpRow) (dept_manager : List DeptManagerRow)
    (salaries : List SalaryRow) (titles : List TitleRow)
    (departments : List DepartmentRow) (emp : EmployeeRow) :
    Except String EmpDoc :=
  transform_employee emp
    (dept_emp.filter (fun r => r.emp_no == emp.emp_no))
    (dept_manager.filter (fun r => r.emp_no == emp.emp_no))
    (salaries.filter (fun r => r.emp_no == emp.emp_no))
    (titles.filter (fun r => r.emp_no == emp.emp_no))
    departments

/-- The aggregation loop of `main` in `src/DB_Migration/pipeline.py`: one
`transform_employee` call per source employee row, appending the document on
success and skipping the row (with an error log) when transformation raises. -/
def aggregate_employees (employees : List EmployeeRow)
    (dept_emp : List DeptEmpRow) (dept_manager : List DeptManagerRow)
    (salaries : List SalaryRow) (titles : List TitleRow)
    (departments : List DepartmentRow) : List EmpDoc :=
  employees.filterMap (fun emp =>
    (transform_for dept_emp dept_manager salaries titles departments emp).toOption)

/-! ### Bulk writer (`MongoLoader.load_collection`, `MongoDBLoader.insert_employees`) -/

/-- One destination-store operation issued by the loaders. -/
inductive MongoOp (α : Type) where
  | delete_many (collection : String) : MongoOp α
  | insert_many (collection : String) (batch : List α) : MongoOp α
deriving DecidableEq, Repr

/-- Fuel-indexed batch slicing. `batchesFuel B fuel docs` models the loop
`for i in range(0, len(documents), batch_size): batch = documents[i:i+batch_size]`
when `fuel ≥ docs.length` and `B > 0`; the fuel makes the recursion structural. -/
def batchesFuel (B : Nat) : Nat → List α → List (List α)
  | _, [] => []
  | 0, _ :: _ => []
  | fuel + 1, d :: ds => (d :: ds).take B :: batchesFuel B fuel ((d :: ds).drop B)

/-- The batch sequence of `load_collection`: the slices
`documents[i:i+batch_size]` for `i in range(0, len(documents), batch_size)`.
Python raises `ValueError` for a zero step, so `B = 0` is outside the model
(every claim assumes the positive default `batch_size=1000`). -/
def batches (B : Nat) (docs : List α) : List (List α) :=
  batchesFuel B docs.length docs

/-- One pass of the insert loop of `load_collection` over the batch list,
with `fails b = true` meaning `insert_many` on batch `b` raises
`BulkWriteError`. Returns the insert operations issued and whether the loop
terminated by raising: the `except BulkWriteError` clause logs the details and
re-raises, so a failing batch is the last one attempted. -/
def run_batches (c : String) (fails : List α → Bool) :
    List (List α) → List (MongoOp α) × Bool
  | [] => ([], false)
  | b :: rest =>
    if fails b then ([MongoOp.insert_many c b], true)
    else
      let r := run_batches c fails rest
      (MongoOp.insert_many c b :: r.1, r.2)

/-- `MongoLoader.load_collection` from `src/DB_Migration/pipeline.py` as an
operation trace plus a raised-exception flag: `delete_many({})` is issued
unconditionally, then, only when `documents` is non-empty, the batch insert
loop runs (re-raising on a `BulkWriteError`). -/
def load_collection_run (c : String) (docs : List α) (B : Nat)
    (fails : List α → Bool) : List (MongoOp α) × Bool :=
  let r := if docs.isEmpty then ([], false) else run_batches c fails (batches B docs)
  (MongoOp.delete_many c :: r.1, r.2)

/-- The operation trace of `load_collection` when no bulk write fails. -/
def load_collection (c : String) (docs : List α) (B : Nat) : List (MongoOp α) :=
  (load_collection_run c docs B (fun _ => false)).1

/-- The batches of the insert operations in a trace, in order. -/
def insertBatches : List (MongoOp α) → List (List α)
  | [] => []
  | MongoOp.insert_many _ b :: rest => b :: insertBatches rest
  | MongoOp.delete_many _ :: rest => insertBatches rest

/-- `MongoDBLoader.insert_employees` from `src/pipeline.py` as a trace plus a
raised flag: on empty input it logs and returns without any operation; else it
issues one unordered `insert_many` on the `employees` collection, and both
`except` clauses (`BulkWriteError` and `Exception`) log without re-raising, so
the raised flag is `false` whether or not the insert reports failures. -/
def insert_employees_run (docs : List α) (_bulkWriteFails : Bool) :
    List (MongoOp α) × Bool :=
  if docs.isEmpty then ([], false)
  else ([MongoOp.insert_many "employees" docs], false)

/-! ### The `src/pipeline.py` variant: flat transform and the employee dict -/

/-- The flat employee document built by `DataTransformer.transform_employee`
in `src/pipeline.py` (embedded arrays start empty and are filled in by the
later embedding loops of `ETLPipeline.transform`). -/
structure EmpDocFlat where
  emp_no : Nat
  birth_date : Value
  first_name : String
  last_name : String
  gender : String
  hire_date : Value
  titles : List TitleEntry
  salaries : List SalaryEntry
  departments : List DeptEntry
deriving DecidableEq, Repr

/-- `DataTransformer.transform_employee` from `src/pipeline.py`: scalar fields
with `transform_date` on the two dates (which never raises), and empty
embedded arrays. -/
def transform_employee_flat (r : EmployeeRow) : EmpDocFlat :=
  { emp_no := r.emp_no, birth_date := transform_date r.birth_date,
    first_name := r.first_name, last_name := r.last_name, gender := r.gender,
    hire_date := transform_date r.hire_date, titles := [], salaries := [],
    departments := [] }

/-- Python dict assignment `m[k] = v` on an insertion-ordered association
list: an existing key keeps its position and gets the new value, a new key is
appended at the end. -/
def dictInsert : List (Nat × EmpDocFlat) → Nat → EmpDocFlat → List (Nat × EmpDocFlat)
  | [], k, v => [(k, v)]
  | p :: m, k, v => if p.1 == k then (k, v) :: m else p :: dictInsert m k v

/-- The employee-indexing loop of `ETLPipeline.transform` in
`src/pipeline.py`:
`self.employees[transformed_emp['emp_no']] = transformed_emp` for each source
employee row in order. -/
def etl_employee_index (rows : List EmployeeRow) : List (Nat × EmpDocFlat) :=
  rows.foldl (fun m r => dictInsert m r.emp_no (transform_employee_flat r)) []

/-- Dict lookup on the insertion-ordered association list. -/
def alookup (m : List (Nat × EmpDocFlat)) (k : Nat) : Option EmpDocFlat :=
  (m.find? (fun p => p.1 == k)).map Prod.snd

/-! ### Orchestrator exit behaviour -/

/-- Observable outcome of one pipeline process run: the process exit code,
whether the MySQL connection was closed, whether the MongoDB client was
closed, and whether the success milestone was logged. -/
structure RunResult where
  exit_code : Nat
  mysql_closed : Bool
  mongo_closed : Bool
  success_logged : Bool
deriving DecidableEq, Repr

/-- `ETLPipeline.run` from `src/pipeline.py`, abstracted over the outcomes of
the extract, transform and load phases: any phase error is logged and turned
into `sys.exit(1)`. `extract` closes the MySQL connection in its `finally`
block; `load` closes the MongoDB client in its `finally` block, so the client
is only closed when the load phase is reached. -/
def etl_run (extractRes transformRes loadRes : Except String Unit) : RunResult :=
  match extractRes with
  | .error _ => { exit_code := 1, mysql_closed := true, mongo_closed := false,
                  success_logged := false }
  | .ok _ =>
    match transformRes with
    | .error _ => { exit_code := 1, mysql_closed := true, mongo_closed := false,
                    success_logged := false }
    | .ok _ =>
      match loadRes with
      | .error _ => { exit_code := 1, mysql_closed := true, mongo_closed := true,
                      success_logged := false }
      | .ok _ => { exit_code := 0, mysql_closed := true, mongo_closed := true,
                   success_logged := true }

/-- `main` from `src/DB_Migration/pipeline.py`, abstracted over the outcomes
of the extraction phase and of the load phase: every exception is caught by
`except Exception as e: logging.error('ETL pipeline failed: ...')`, the
`finally` block closes the MySQL extractor, the MongoDB client is never
closed, and the function returns normally on every path, so the process exit
code is always 0. -/
def main_run (extractRes loadRes : Except String Unit) : RunResult :=
  match extractRes with
  | .error _ => { exit_code := 0, mysql_closed := true, mongo_closed := false,
                  success_logged := false }
  | .ok _ =>
    match loadRes with
    | .error _ => { exit_code := 0, mysql_closed := true, mongo_closed := false,
                    success_logged := false }
    | .ok _ => { exit_code := 0, mysql_closed := true, mongo_closed := false,
                 success_logged := true }

/-! ### Helper lemmas -/

theorem mapE_ok_cons {f : α → Except String β} {x : α} {xs : List α} {r : List β}
    (h : mapE f (x :: xs) = Except.ok r) :
    ∃ y ys, f x = Except.ok y ∧ mapE f xs = Except.ok ys ∧ r = y :: ys := by
  cases hx : f x with
  | error e => simp [mapE, hx] at h
  | ok y =>
    cases hxs : mapE f xs with
    | error e => simp [mapE, hx, hxs] at h
    | ok ys =>
      simp only [mapE, hx, hxs, Except.ok.injEq] at h
      exact ⟨y, ys, rfl, rfl, h.symm⟩

theorem mapE_ok_append {f : α → Except String β} {xs ys : List α} {r : List β}
    (h : mapE f (xs ++ ys) = Except.ok r) :
    ∃ r1 r2, mapE f xs = Except.ok r1 ∧ mapE f ys = Except.ok r2 ∧
      r = r1 ++ r2 ∧ r1.length = xs.length := by
  induction xs generalizing r with
  | nil => exact ⟨[], r, rfl, h, rfl, rfl⟩
  | cons x xs ih =>
    rw [List.cons_append] at h
    obtain ⟨y, t, hx, ht, rfl⟩ := mapE_ok_cons h
    obtain ⟨r1, r2, h1, h2, rfl, hlen⟩ := ih ht
    exact ⟨y :: r1, r2, by simp [mapE, hx, h1], h2, rfl, by simp [hlen]⟩

theorem transform_employee_ok_iff {employee : EmployeeRow}
    {dept_emps : List DeptEmpRow} {dept_managers : List DeptManagerRow}
    {salaries : List SalaryRow} {titles : List TitleRow}
    {departments : List DepartmentRow} {doc : EmpDoc} :
    transform_employee employee dept_emps dept_managers salaries titles
        departments = Except.ok doc ↔
      ∃ bd hd ds ss ts mg,
        convert_date employee.birth_date = Except.ok bd ∧
        convert_date employee.hire_date = Except.ok hd ∧
        mapE (map_dept_entry departments) dept_emps = Except.ok ds ∧
        mapE map_salary_entry salaries = Except.ok ss ∧
        mapE map_title_entry titles = Except.ok ts ∧
        map_management dept_managers = Except.ok mg ∧
        doc = { emp_no := employee.emp_no, birth_date := bd,
                first_name := employee.first_name,
                last_name := employee.last_name, gender := employee.gender,
                hire_date := hd, departments := ds, salaries := ss,
                titles := ts, management := mg } := by
  constructor
  · intro h
    unfold transform_employee at h
    cases h1 : convert_date employee.birth_date with
    | error e => simp only [h1] at h; exact absurd h (by simp)
    | ok bd =>
    simp only [h1] at h
    cases h2 : convert_date employee.hire_date with
    | error e => simp only [h2] at h; exact absurd h (by simp)
    | ok hd =>
    simp only [h2] at h
    cases h3 : mapE (map_dept_entry departments) dept_emps with
    | error e => simp only [h3] at h; exact absurd h (by simp)
    | ok ds =>
    simp only [h3] at h
    cases h4 : mapE map_salary_entry salaries with
    | error e => simp only [h4] at h; exact absurd h (by simp)
    | ok ss =>
    simp only [h4] at h
    cases h5 : mapE map_title_entry titles with
    | error e => simp only [h5] at h; exact absurd h (by simp)
    | ok ts =>
    simp only [h5] at h
    cases h6 : map_management dept_managers with
    | error e => simp only [h6] at h; exact absurd h (by simp)
    | ok mg =>
    simp only [h6] at h
    exact ⟨bd, hd, ds, ss, ts, mg, rfl, rfl, rfl, rfl, rfl, rfl,
      (Except.ok.inj h).symm⟩
  · rintro ⟨bd, hd, ds, ss, ts, mg, h1, h2, h3, h4, h5, h6, rfl⟩
    simp [transform_employee, h1, h2, h3, h4, h5, h6]

theorem batchesFuel_congr {B : Nat} (hB : B ≠ 0) :
    ∀ {fuel1 fuel2 : Nat} {docs : List α}, docs.length ≤ fuel1 →
      docs.length ≤ fuel2 → batchesFuel B fuel1 docs = batchesFuel B fuel2 docs := by
  intro fuel1
  induction fuel1 with
  | zero =>
    intro fuel2 docs h1 h2
    match docs with
    | [] => cases fuel2 <;> rfl
    | d :: ds => simp at h1
  | succ f ih =>
    intro fuel2 docs h1 h2
    match docs with
    | [] => cases fuel2 <;> rfl
    | d :: ds =>
      match fuel2 with
      | f2 + 1 =>
        simp only [batchesFuel]
        congr 1
        have hd : ((d :: ds).drop B).length ≤ f := by
          simp only [List.length_drop, List.length_cons]
          simp only [List.length_cons] at h1
          omega
        have hd2 : ((d :: ds).drop B).length ≤ f2 := by
          simp only [List.length_drop, List.length_cons]
          simp only [List.length_cons] at h2
          omega
        exact ih hd hd2

theorem batches_cons {B : Nat} (hB : B ≠ 0) (d : α) (ds : List α) :
    batches B (d :: ds) = (d :: ds).take B :: batches B ((d :: ds).drop B) := by
  unfold batches
  simp only [List.length_cons, batchesFuel]
  congr 1
  have hd : ((d :: ds).drop B).length ≤ ds.length := by
    simp only [List.length_drop, List.length_cons]
    omega
  exact batchesFuel_congr hB hd le_rfl

theorem drop_length_le {B : Nat} (hB : B ≠ 0) (d : α) (ds : List α) {n : Nat}
    (h : (d :: ds).length ≤ n + 1) : ((d :: ds).drop B).length ≤ n := by
  simp only [List.length_drop, List.length_cons]
  simp only [List.length_cons] at h
  omega

theorem batches_flatten_fuel {B : Nat} (hB : B ≠ 0) :
    ∀ (n : Nat) (docs : List α), docs.length ≤ n → (batches B docs).flatten = docs := by
  intro n
  induction n with
  | zero =>
    intro docs h
    match docs with
    | [] => rfl
  | succ n ih =>
    intro docs h
    match docs with
    | [] => rfl
    | d :: ds =>
      rw [batches_cons hB, List.flatten_cons,
        ih ((d :: ds).drop B) (drop_length_le hB d ds h)]
      exact List.take_append_drop B (d :: ds)

theorem batches_flatten {B : Nat} (hB : B ≠ 0) (docs : List α) :
    (batches B docs).flatten = docs :=
  batches_flatten_fuel hB docs.length docs le_rfl

theorem ceil_div_step {L B : Nat} (hB : B ≠ 0) (hL : L ≠ 0) :
    (L - B + B - 1) / B + 1 = (L + B - 1) / B := by
  have hBpos : 0 < B := Nat.pos_of_ne_zero hB
  have hR : L + B - 1 = (L - 1) + B := by omega
  rw [hR, Nat.add_div_right _ hBpos]
  rcases Nat.lt_or_ge L B with h | h
  · have h1 : L - B = 0 := by omega
    rw [h1]
    rw [Nat.div_eq_of_lt (by omega), Nat.div_eq_of_lt (by omega)]
  · have h1 : L - B + B - 1 = L - 1 := by omega
    rw [h1]

theorem batches_length_fuel {B : Nat} (hB : B ≠ 0) :
    ∀ (n : Nat) (docs : List α), docs.length ≤ n →
      (batches B docs).length = (docs.length + B - 1) / B := by
  intro n
  induction n with
  | zero =>
    intro docs h
    match docs with
    | [] => simp [batches, batchesFuel, Nat.div_eq_of_lt (by omega : B - 1 < B)]
  | succ n ih =>
    intro docs h
    match docs with
    | [] => simp [batches, batchesFuel, Nat.div_eq_of_lt (by omega : B - 1 < B)]
    | d :: ds =>
      rw [batches_cons hB, List.length_cons,
        ih ((d :: ds).drop B) (drop_length_le hB d ds h)]
      simp only [List.length_drop]
      exact ceil_div_step hB (by simp)

theorem batches_length {B : Nat} (hB : B ≠ 0) (docs : List α) :
    (batches B docs).length = (docs.length + B - 1) / B :=
  batches_length_fuel hB docs.length docs le_rfl

theorem batches_sizes_fuel {B : Nat} (hB : B ≠ 0) :
    ∀ (n : Nat) (docs : List α), docs.length ≤ n →
      ∀ b ∈ batches B docs, b.length ≤ B := by
  intro n
  induction n with
  | zero =>
    intro docs h b hb
    match docs with
    | [] => simp [batches, batchesFuel] at hb
  | succ n ih =>
    intro docs h b hb
    match docs with
    | [] => simp [batches, batchesFuel] at hb
    | d :: ds =>
      rw [batches_cons hB] at hb
      rcases List.mem_cons.mp hb with rfl | hmem
      · simp only [List.length_take]
        exact min_le_left _ _
      · exact ih ((d :: ds).drop B) (drop_length_le hB d ds h) b hmem

theorem batches_sizes {B : Nat} (hB : B ≠ 0) (docs : List α) :
    ∀ b ∈ batches B docs, b.length ≤ B :=
  batches_sizes_fuel hB docs.length docs le_rfl

theorem insertBatches_map (c : String) (bs : List (List α)) :
    insertBatches (bs.map (MongoOp.insert_many c)) = bs := by
  induction bs with
  | nil => rfl
  | cons b bs ih => simp [insertBatches, ih]

theorem run_batches_noFail (c : String) (bs : List (List α)) :
    run_batches c (fun _ => false) bs = (bs.map (MongoOp.insert_many c), false) := by
  induction bs with
  | nil => rfl
  | cons b bs ih => simp [run_batches, ih]

theorem run_batches_raised (c : String) (fails : List α → Bool)
    (bs : List (List α)) : (run_batches c fails bs).2 = bs.any fails := by
  induction bs with
  | nil => rfl
  | cons b bs ih =>
    by_cases h : fails b <;> simp [run_batches, h, ih]

theorem load_collection_eq (c : String) (docs : List α) (B : Nat) :
    load_collection c docs B =
      MongoOp.delete_many c :: (batches B docs).map (MongoOp.insert_many c) := by
  unfold load_collection load_collection_run
  match docs with
  | [] => rfl
  | d :: ds => simp [run_batches_noFail]

theorem alookup_nil (q : Nat) : alookup [] q = none := rfl

theorem alookup_cons (p : Nat × EmpDocFlat) (m : List (Nat × EmpDocFlat))
    (q : Nat) :
    alookup (p :: m) q = if p.1 = q then some p.2 else alookup m q := by
  by_cases h : p.1 = q
  · have hb : (p.1 == q) = true := by simp [h]
    simp [alookup, List.find?, hb, h]
  · have hb : (p.1 == q) = false := by simp [h]
    simp [alookup, List.find?, hb, h]

theorem alookup_dictInsert (m : List (Nat × EmpDocFlat)) (k q : Nat)
    (v : EmpDocFlat) :
    alookup (dictInsert m k v) q = if q = k then some v else alookup m q := by
  induction m with
  | nil =>
    rw [show dictInsert [] k v = [(k, v)] from rfl, alookup_cons]
    by_cases h : q = k
    · simp [h]
    · have h2 : ¬ k = q := fun hh => h hh.symm
      simp [h, h2, alookup_nil]
  | cons p m ih =>
    by_cases hpk : p.1 = k
    · subst hpk
      have hb : (p.1 == p.1) = true := by simp
      simp only [dictInsert, hb, if_true]
      rw [alookup_cons, alookup_cons]
      by_cases h : q = p.1
      · subst h
        simp
      · have h2 : ¬ p.1 = q := fun hh => h hh.symm
        simp [h, h2]
    · have hb : (p.1 == k) = false := by simp [hpk]
      simp only [dictInsert, hb, Bool.false_eq_true, if_false]
      rw [alookup_cons, alookup_cons, ih]
      by_cases h1 : p.1 = q
      · have h2 : ¬ q = k := by rw [← h1]; exact hpk
        simp [h1, h2]
      · simp [h1]

theorem mem_keys_dictInsert (m : List (Nat × EmpDocFlat)) (k q : Nat)
    (v : EmpDocFlat) :
    q ∈ (dictInsert m k v).map Prod.fst ↔ q ∈ m.map Prod.fst ∨ q = k := by
  induction m with
  | nil => simp [dictInsert]
  | cons p m ih =>
    by_cases hpk : p.1 = k
    · subst hpk
      have hb : (p.1 == p.1) = true := by simp
      simp only [dictInsert, hb, if_true, List.map_cons, List.mem_cons]
      tauto
    · have hb : (p.1 == k) = false := by simp [hpk]
      simp only [dictInsert, hb, Bool.false_eq_true, if_false,
        List.map_cons, List.mem_cons, ih]
      tauto

theorem keys_nodup_dictInsert (m : List (Nat × EmpDocFlat)) (k : Nat)
    (v : EmpDocFlat) (h : (m.map Prod.fst).Nodup) :
    ((dictInsert m k v).map Prod.fst).Nodup := by
  induction m with
  | nil => simp [dictInsert]
  | cons p m ih =>
    simp only [List.map_cons, List.nodup_cons] at h
    by_cases hpk : p.1 = k
    · subst hpk
      have hb : (p.1 == p.1) = true := by simp
      simp only [dictInsert, hb, if_true, List.map_cons, List.nodup_cons]
      exact ⟨h.1, h.2⟩
    · have hb : (p.1 == k) = false := by simp [hpk]
      simp only [dictInsert, hb, Bool.false_eq_true, if_false,
        List.map_cons, List.nodup_cons]
      refine ⟨?_, ih h.2⟩
      rw [mem_keys_dictInsert]
      rintro (hmem | rfl)
      · exact h.1 hmem
      · exact hpk rfl

theorem etl_employee_index_snoc (rows : List EmployeeRow) (r : EmployeeRow) :
    etl_employee_index (rows ++ [r]) =
      dictInsert (etl_employee_index rows) r.emp_no (transform_employee_flat r) := by
  unfold etl_employee_index
  rw [List.foldl_append]
  rfl

theorem etl_employee_index_keys_nodup (rows : List EmployeeRow) :
    ((etl_employee_index rows).map Prod.fst).Nodup := by
  induction rows using List.reverseRecOn with
  | nil => simp [etl_employee_index]
  | append_singleton rows r ih =>
    rw [etl_employee_index_snoc]
    exact keys_nodup_dictInsert _ _ _ ih

theorem mem_keys_etl_employee_index (rows : List EmployeeRow) (q : Nat) :
    q ∈ (etl_employee_index rows).map Prod.fst ↔ ∃ r ∈ rows, r.emp_no = q := by
  induction rows using List.reverseRecOn with
  | nil => simp [etl_employee_index]
  | append_singleton rows r ih =>
    rw [etl_employee_index_snoc, mem_keys_dictInsert, ih]
    constructor
    · rintro (⟨x, hx, rfl⟩ | rfl)
      · exact ⟨x, by simp [hx]⟩
      · exact ⟨r, by simp⟩
    · rintro ⟨x, hx, rfl⟩
      rcases List.mem_append.mp hx with h | h
      · exact Or.inl ⟨x, h, rfl⟩
      · rcases List.mem_singleton.mp h with rfl
        exact Or.inr rfl

theorem alookup_etl_employee_index (rows : List EmployeeRow) (q : Nat) :
    alookup (etl_employee_index rows) q =
      ((rows.filter (fun r => r.emp_no == q)).getLast?).map
        transform_employee_flat := by
  induction rows using List.reverseRecOn with
  | nil => simp [etl_employee_index, alookup_nil]
  | append_singleton rows r ih =>
    rw [etl_employee_index_snoc, alookup_dictInsert, List.filter_append]
    by_cases h : r.emp_no = q
    · have hb : (r.emp_no == q) = true := by simp [h]
      have h2 : q = r.emp_no := h.symm
      simp [List.filter, hb, h2]
    · have hb : (r.emp_no == q) = false := by simp [h]
      have h2 : ¬ q = r.emp_no := fun hh => h hh.symm
      simp [List.filter, hb, h2, ih]


theorem mapE_ok_length {f : α → Except String β} {xs : List α} {r : List β}
    (h : mapE f xs = Except.ok r) : r.length = xs.length := by
  induction xs generalizing r with
  | nil =>
    simp only [mapE, Except.ok.injEq] at h
    simp [← h]
  | cons x xs ih =>
    obtain ⟨y, ys, hx, hxs, rfl⟩ := mapE_ok_cons h
    simp [ih hxs]

/-- C1 counterexample: the claim says `load_collection` on an empty documents
sequence returns without issuing any delete, leaving the collection unchanged.
On the concrete call `load_collection "employees" [] 1000` the code issues
`delete_many` (it runs before the `if documents:` guard), so the claim is
false. -/
theorem claim1_counterexample :
    MongoOp.delete_many "employees" ∈
      load_collection "employees" ([] : List EmpDoc) 1000 ∧
    load_collection "employees" ([] : List EmpDoc) 1000 =
      [MongoOp.delete_many "employees"] := by decide

/-- C1 amended: for every call of `load_collection` with an empty documents
sequence, the operation issues the unconditional `delete_many` (clearing the
named collection's prior content) and then returns without issuing any
insert. -/
theorem claim1_amended {α : Type} (c : String) (B : Nat) :
    load_collection c ([] : List α) B = [MongoOp.delete_many c] := rfl

/-- C2 counterexample: the claim says a batch with failed inserts is logged
but the partial-write error is not re-raised, so the load continues to the
remaining batches. On two documents with batch size 1 where the first batch's
`insert_many` raises `BulkWriteError`, `load_collection` re-raises (the raised
flag is `true`) and the second batch is never attempted. -/
theorem claim2_counterexample :
    (load_collection_run "employees" ([1, 2] : List Nat) 1
        (fun b => b == [1])).2 = true ∧
    MongoOp.insert_many "employees" [2] ∉
      (load_collection_run "employees" ([1, 2] : List Nat) 1
        (fun b => b == [1])).1 := by decide

/-- C2 amended: when some batch of a `load_collection` call reports a
`BulkWriteError`, the error is logged and re-raised, so the call terminates
raising at the first failing batch and the remaining batches (and, in `main`,
the remaining collections) are not attempted; by contrast, the
`MongoDBLoader.insert_employees` variant catches `BulkWriteError` (and any
other exception) without re-raising, so it never raises. -/
theorem claim2_amended {α : Type} (c : String) (docs : List α) (B : Nat)
    (fails : List α → Bool) (hfail : (batches B docs).any fails = true) :
    (load_collection_run c docs B fails).2 = true ∧
    (∀ (b : List α) (rest : List (List α)), fails b = true →
      run_batches c fails (b :: rest) = ([MongoOp.insert_many c b], true)) ∧
    (∀ (ds : List α) (bw : Bool), (insert_employees_run ds bw).2 = false) := by
  refine ⟨?_, ?_, ?_⟩
  · have hne : docs.isEmpty = false := by
      cases docs with
      | nil => simp [batches, batchesFuel] at hfail
      | cons d ds => rfl
    unfold load_collection_run
    simp only [hne, Bool.false_eq_true, if_false]
    rw [run_batches_raised]
    exact hfail
  · intro b rest hb
    simp [run_batches, hb]
  · intro ds bw
    unfold insert_employees_run
    by_cases h : ds.isEmpty <;> simp [h]

/-- C2 witness: `claim2_amended` instantiated at two documents with batch
size 1 where the second batch fails. -/
theorem claim2_witness :
    (load_collection_run "employees" ([1, 2] : List Nat) 1
        (fun b => b == [2])).2 = true :=
  (claim2_amended "employees" [1, 2] 1 (fun b => b == [2]) (by decide)).1

/-- C7: for every documents sequence of length D and every batch size B > 0,
`load_collection` issues exactly ceil(D/B) insert calls, each inserting a
consecutive batch of size at most B, and the concatenation of the insert
batches is exactly the documents sequence (every document in exactly one
batch). -/
theorem claim7_batch_partition {α : Type} (c : String) (docs : List α) (B : Nat)
    (hB : 0 < B) :
    (insertBatches (load_collection c docs B)).length = (docs.length + B - 1) / B ∧
    (∀ b ∈ insertBatches (load_collection c docs B), b.length ≤ B) ∧
    (insertBatches (load_collection c docs B)).flatten = docs := by
  have hB0 : B ≠ 0 := Nat.pos_iff_ne_zero.mp hB
  rw [load_collection_eq]
  rw [show insertBatches (MongoOp.delete_many c ::
        (batches B docs).map (MongoOp.insert_many c)) =
      insertBatches ((batches B docs).map (MongoOp.insert_many c)) from rfl]
  rw [insertBatches_map]
  exact ⟨batches_length hB0 docs, batches_sizes hB0 docs, batches_flatten hB0 docs⟩

/-- C7 witness: `claim7_batch_partition` at three documents with batch
size 2: two insert calls covering all documents. -/
theorem claim7_witness :
    (insertBatches (load_collection "employees" ([1, 2, 3] : List Nat) 2)).length = 2 ∧
    (insertBatches (load_collection "employees" ([1, 2, 3] : List Nat) 2)).flatten =
      [1, 2, 3] :=
  ⟨(claim7_batch_partition "employees" [1, 2, 3] 2 (by decide)).1,
   (claim7_batch_partition "employees" [1, 2, 3] 2 (by decide)).2.2⟩

/-- C10 counterexample: the claim says an unrecoverable failure during
extraction or loading results in a non-zero process exit. In
`src/DB_Migration/pipeline.py` `main` catches every exception and returns
normally, so on a failing extraction (and likewise a failing load) the
process exit code is 0. -/
theorem claim10_counterexample :
    (main_run (Except.error "MySQL connection refused") (Except.ok ())).exit_code = 0 ∧
    (main_run (Except.ok ()) (Except.error "BulkWriteError")).exit_code = 0 := by
  decide

/-- C10 amended: `ETLPipeline.run` exits normally on success and calls
`sys.exit(1)` after closing the MySQL connection when extraction or loading
fails (the MongoDB client is additionally closed when the load phase was
reached); the `DB_Migration` script's `main`, however, catches all pipeline
errors, closes the MySQL connection, and always returns normally, so its
process exit code is 0 even on unrecoverable failure. -/
theorem claim10_amended :
    ((etl_run (Except.ok ()) (Except.ok ()) (Except.ok ())).exit_code = 0 ∧
     (etl_run (Except.ok ()) (Except.ok ()) (Except.ok ())).mysql_closed = true ∧
     (etl_run (Except.ok ()) (Except.ok ()) (Except.ok ())).mongo_closed = true) ∧
    (∀ (e : String) (t l : Except String Unit),
      (etl_run (Except.error e) t l).exit_code = 1 ∧
      (etl_run (Except.error e) t l).mysql_closed = true) ∧
    (∀ e : String,
      (etl_run (Except.ok ()) (Except.ok ()) (Except.error e)).exit_code = 1 ∧
      (etl_run (Except.ok ()) (Except.ok ()) (Except.error e)).mysql_closed = true ∧
      (etl_run (Except.ok ()) (Except.ok ()) (Except.error e)).mongo_closed = true) ∧
    (∀ ex ld : Except String Unit,
      (main_run ex ld).exit_code = 0 ∧ (main_run ex ld).mysql_closed = true) := by
  refine ⟨⟨rfl, rfl, rfl⟩, fun e t l => ⟨rfl, rfl⟩, fun e => ⟨rfl, rfl, rfl⟩,
    fun ex ld => ?_⟩
  cases ex <;> cases ld <;> exact ⟨rfl, rfl⟩


/-- C3 counterexample: the claim says the date-normalization function
returns null on null input and returns an already-normalized date unchanged.
`convert_date` raises (`TypeError` from `strptime`) on `None` instead of
returning null, and `transform_date` maps an already-parsed date to `None`
instead of returning it unchanged. -/
theorem claim3_counterexample :
    convert_date Value.vnone = Except.error "TypeError" ∧
    convert_date Value.vnone ≠ Except.ok Value.vnone ∧
    transform_date (Value.vdate 2020 1 1) = Value.vnone ∧
    transform_date (Value.vdate 2020 1 1) ≠ Value.vdate 2020 1 1 :=
  ⟨rfl, fun h => Except.noConfusion h, rfl, fun h => Value.noConfusion h⟩

/-- C3 amended: `convert_date` returns an already-normalized date unchanged
and parses a YYYY-MM-DD string, but raises on null/absent input;
`transform_date` parses a YYYY-MM-DD string and returns null on null/absent
input, but maps an already-normalized date to null (the `strptime` call on a
non-string raises and the handler returns `None`) rather than returning it
unchanged. -/
theorem claim3_amended :
    (∀ y m d, convert_date (Value.vdate y m d) = Except.ok (Value.vdate y m d)) ∧
    (∀ s y m d, parseYMD s = some (y, m, d) →
      convert_date (Value.vstr s) = Except.ok (Value.vdate y m d) ∧
      transform_date (Value.vstr s) = Value.vdate y m d) ∧
    ((convert_date Value.vnone).isOk = false) ∧
    (transform_date Value.vnone = Value.vnone) ∧
    (∀ y m d, transform_date (Value.vdate y m d) = Value.vnone) := by
  refine ⟨fun y m d => rfl, ?_, rfl, rfl, fun y m d => rfl⟩
  intro s y m d hp
  constructor
  · simp [convert_date, hp]
  · have hs : s.data.isEmpty = false := by
      cases hse : s.data.isEmpty
      · rfl
      · exfalso
        have hdata : s.data = [] := by
          cases hd : s.data
          · rfl
          · rw [hd] at hse; simp at hse
        rw [parseYMD, hdata] at hp
        exact Option.noConfusion hp
    simp [transform_date, Value.truthy, hs, hp]

/-- C3 witness: `claim3_amended` instantiated at the parseable string
"1990-05-17". -/
theorem claim3_witness :
    convert_date (Value.vstr "1990-05-17") = Except.ok (Value.vdate 1990 5 17) ∧
    transform_date (Value.vstr "1990-05-17") = Value.vdate 1990 5 17 :=
  claim3_amended.2.1 "1990-05-17" 1990 5 17 (by decide)

/-- C4: in the aggregation loop of `main`, an employee row whose
transformation raises (for example on a malformed date string) is dropped
from the output sequence with a log message, and aggregation continues to
produce documents for all remaining employees, before and after the failing
row. -/
theorem claim4_row_error_skipped (pre post : List EmployeeRow)
    (bad : EmployeeRow) (dept_emp : List DeptEmpRow)
    (dept_manager : List DeptManagerRow) (salaries : List SalaryRow)
    (titles : List TitleRow) (departments : List DepartmentRow) (err : String)
    (hbad : transform_for dept_emp dept_manager salaries titles departments bad =
      Except.error err) :
    aggregate_employees (pre ++ bad :: post) dept_emp dept_manager salaries
        titles departments =
      aggregate_employees pre dept_emp dept_manager salaries titles departments ++
      aggregate_employees post dept_emp dept_manager salaries titles departments := by
  unfold aggregate_employees
  rw [List.filterMap_append]
  congr 1
  have hnone : (transform_for dept_emp dept_manager salaries titles departments
      bad).toOption = none := by rw [hbad]; rfl
  rw [List.filterMap_cons]
  simp [hnone]

/-- C4 witness: `claim4_row_error_skipped` at a three-employee list whose
middle row has birth_date "not-a-date". -/
theorem claim4_witness :
    aggregate_employees
        [⟨1, Value.vdate 1970 1 1, "A", "B", "M", Value.vdate 1990 1 1⟩,
         ⟨2, Value.vstr "not-a-date", "C", "D", "F", Value.vdate 1991 1 1⟩,
         ⟨3, Value.vdate 1972 3 3, "E", "G", "F", Value.vdate 1992 1 1⟩]
        [] [] [] [] [] =
      aggregate_employees
        [⟨1, Value.vdate 1970 1 1, "A", "B", "M", Value.vdate 1990 1 1⟩]
        [] [] [] [] [] ++
      aggregate_employees
        [⟨3, Value.vdate 1972 3 3, "E", "G", "F", Value.vdate 1992 1 1⟩]
        [] [] [] [] [] :=
  claim4_row_error_skipped
    [⟨1, Value.vdate 1970 1 1, "A", "B", "M", Value.vdate 1990 1 1⟩]
    [⟨3, Value.vdate 1972 3 3, "E", "G", "F", Value.vdate 1992 1 1⟩]
    ⟨2, Value.vstr "not-a-date", "C", "D", "F", Value.vdate 1991 1 1⟩
    [] [] [] [] [] "ValueError" rfl

/-- C5: for every employee whose dept_manager list has length at least 2,
the transformed document's management field equals the mapping of the first
dept_manager row in source order, and the remaining rows are ignored (the
result does not depend on them at all). -/
theorem claim5_first_manager_wins (emp : EmployeeRow)
    (dept_emps : List DeptEmpRow) (mgr : DeptManagerRow)
    (rest rest2 : List DeptManagerRow) (salaries : List SalaryRow)
    (titles : List TitleRow) (departments : List DepartmentRow) (doc : EmpDoc)
    (fd td : Value) (_hN : (mgr :: rest).length ≥ 2)
    (hf : convert_date mgr.from_date = Except.ok fd)
    (ht : convert_date mgr.to_date = Except.ok td)
    (hok : transform_employee emp dept_emps (mgr :: rest) salaries titles
        departments = Except.ok doc) :
    doc.management =
      some { dept_no := mgr.dept_no, from_date := fd, to_date := td } ∧
    transform_employee emp dept_emps (mgr :: rest) salaries titles departments =
      transform_employee emp dept_emps (mgr :: rest2) salaries titles
        departments := by
  constructor
  · obtain ⟨bd, hd, ds, ss, ts, mg, h1, h2, h3, h4, h5, h6, rfl⟩ :=
      transform_employee_ok_iff.mp hok
    have hmm : map_management (mgr :: rest) =
        Except.ok (some { dept_no := mgr.dept_no, from_date := fd,
                          to_date := td }) := by
      simp [map_management, hf, ht]
    rw [hmm] at h6
    obtain rfl := Except.ok.inj h6
    rfl
  · rfl

/-- C5 witness: `claim5_first_manager_wins` at an employee with two manager
rows for departments d001 and d002. -/
theorem claim5_witness :
    ({ emp_no := 1, birth_date := Value.vdate 1970 1 1, first_name := "A",
       last_name := "B", gender := "M", hire_date := Value.vdate 1990 1 1,
       departments := [], salaries := [], titles := [],
       management := some { dept_no := "d001",
                            from_date := Value.vdate 1990 1 1,
                            to_date := Value.vdate 1991 1 1 } } : EmpDoc).management =
      some { dept_no := "d001", from_date := Value.vdate 1990 1 1,
             to_date := Value.vdate 1991 1 1 } ∧
    transform_employee ⟨1, Value.vdate 1970 1 1, "A", "B", "M",
        Value.vdate 1990 1 1⟩ []
        [⟨1, "d001", Value.vdate 1990 1 1, Value.vdate 1991 1 1⟩,
         ⟨1, "d002", Value.vdate 1992 1 1, Value.vdate 1993 1 1⟩] [] [] [] =
      transform_employee ⟨1, Value.vdate 1970 1 1, "A", "B", "M",
        Value.vdate 1990 1 1⟩ []
        [⟨1, "d001", Value.vdate 1990 1 1, Value.vdate 1991 1 1⟩] [] [] [] :=
  claim5_first_manager_wins
    ⟨1, Value.vdate 1970 1 1, "A", "B", "M", Value.vdate 1990 1 1⟩ []
    ⟨1, "d001", Value.vdate 1990 1 1, Value.vdate 1991 1 1⟩
    [⟨1, "d002", Value.vdate 1992 1 1, Value.vdate 1993 1 1⟩] []
    [] [] [] _ _ _ (by decide) rfl rfl rfl


/-- C6: for every dept_emp row whose dept_no is absent from the department
lookup, the transformed document still contains the corresponding assignment
entry at its source position (it is never dropped), and that entry's
dept_name is "Unknown" while its dept_no is the row's dept_no. -/
theorem claim6_unknown_department (emp : EmployeeRow)
    (pre post : List DeptEmpRow) (de : DeptEmpRow)
    (dept_managers : List DeptManagerRow) (salaries : List SalaryRow)
    (titles : List TitleRow) (departments : List DepartmentRow) (doc : EmpDoc)
    (hlk : departments_lookup departments de.dept_no = none)
    (hok : transform_employee emp (pre ++ de :: post) dept_managers salaries
        titles departments = Except.ok doc) :
    doc.departments.length = pre.length + post.length + 1 ∧
    ∃ fd td, convert_date de.from_date = Except.ok fd ∧
      convert_date de.to_date = Except.ok td ∧
      doc.departments[pre.length]? =
        some { dept_no := de.dept_no, dept_name := "Unknown", from_date := fd,
               to_date := td } := by
  obtain ⟨bd, hd, ds, ss, ts, mg, h1, h2, h3, h4, h5, h6, rfl⟩ :=
    transform_employee_ok_iff.mp hok
  obtain ⟨r1, r2, hr1, hr2, rfl, hlen⟩ := mapE_ok_append h3
  obtain ⟨y, ys, hy, hys, rfl⟩ := mapE_ok_cons hr2
  cases hf : convert_date de.from_date with
  | error e => simp [map_dept_entry, hlk, hf] at hy
  | ok fd =>
  cases ht : convert_date de.to_date with
  | error e => simp [map_dept_entry, hlk, hf, ht] at hy
  | ok td =>
  have hyv : y = { dept_no := de.dept_no, dept_name := "Unknown",
                   from_date := fd, to_date := td } := by
    simp [map_dept_entry, hlk, hf, ht] at hy
    exact hy.symm
  constructor
  · have hys2 := mapE_ok_length hys
    simp only [List.length_append, List.length_cons, hlen, hys2]
    omega
  · refine ⟨fd, td, rfl, rfl, ?_⟩
    have hi : r1.length ≤ pre.length := le_of_eq hlen
    rw [List.getElem?_append_right hi, hlen]
    simp [hyv]

/-- C6 witness: `claim6_unknown_department` at one assignment row whose
dept_no "d999" is absent from an empty department lookup. -/
theorem claim6_witness :
    (({ emp_no := 1, birth_date := Value.vdate 1970 1 1, first_name := "A",
        last_name := "B", gender := "M", hire_date := Value.vdate 1990 1 1,
        departments := [{ dept_no := "d999", dept_name := "Unknown",
                          from_date := Value.vdate 1990 1 1,
                          to_date := Value.vdate 1991 1 1 }],
        salaries := [], titles := [], management := none } : EmpDoc).departments.length
      = 0 + 0 + 1) ∧
    ∃ fd td,
      convert_date (Value.vdate 1990 1 1) = Except.ok fd ∧
      convert_date (Value.vdate 1991 1 1) = Except.ok td ∧
      (({ emp_no := 1, birth_date := Value.vdate 1970 1 1, first_name := "A",
          last_name := "B", gender := "M", hire_date := Value.vdate 1990 1 1,
          departments := [{ dept_no := "d999", dept_name := "Unknown",
                            from_date := Value.vdate 1990 1 1,
                            to_date := Value.vdate 1991 1 1 }],
          salaries := [], titles := [],
          management := none } : EmpDoc).departments[(0 : Nat)]? =
        some { dept_no := "d999", dept_name := "Unknown", from_date := fd,
               to_date := td }) :=
  claim6_unknown_department
    ⟨1, Value.vdate 1970 1 1, "A", "B", "M", Value.vdate 1990 1 1⟩
    [] [] ⟨1, "d999", Value.vdate 1990 1 1, Value.vdate 1991 1 1⟩
    [] [] [] [] _ rfl rfl

/-- C8 counterexample: the claim says transformation of an employee row
with no matching child rows always succeeds and produces a document. For an
employee whose own birth_date is the malformed string "not-a-date" and who
has no child rows, `transform_employee` raises and the aggregation loop
produces no document for it, so the claim is false as stated. -/
theorem claim8_counterexample :
    aggregate_employees
        [⟨1, Value.vstr "not-a-date", "Ann", "Lee", "F", Value.vdate 1990 1 1⟩]
        [] [] [] [] [] = [] ∧
    (transform_employee
        ⟨1, Value.vstr "not-a-date", "Ann", "Lee", "F", Value.vdate 1990 1 1⟩
        [] [] [] [] []).isOk = false := by decide

/-- C8 amended: for every employee row whose own birth_date and hire_date
convert successfully and that has no matching child rows in any of the
titles, salaries, dept_emp and dept_manager tables, the per-employee
transformation succeeds and yields a document with empty departments,
salaries and titles arrays and null management. -/
theorem claim8_amended (emp : EmployeeRow) (bd hd : Value)
    (dept_emp : List DeptEmpRow) (dept_manager : List DeptManagerRow)
    (salaries : List SalaryRow) (titles : List TitleRow)
    (departments : List DepartmentRow)
    (hde : dept_emp.filter (fun r => r.emp_no == emp.emp_no) = [])
    (hdm : dept_manager.filter (fun r => r.emp_no == emp.emp_no) = [])
    (hsa : salaries.filter (fun r => r.emp_no == emp.emp_no) = [])
    (hti : titles.filter (fun r => r.emp_no == emp.emp_no) = [])
    (hb : convert_date emp.birth_date = Except.ok bd)
    (hh : convert_date emp.hire_date = Except.ok hd) :
    transform_for dept_emp dept_manager salaries titles departments emp =
      Except.ok { emp_no := emp.emp_no, birth_date := bd,
                  first_name := emp.first_name, last_name := emp.last_name,
                  gender := emp.gender, hire_date := hd, departments := [],
                  salaries := [], titles := [], management := none } := by
  unfold transform_for
  rw [hde, hdm, hsa, hti]
  simp [transform_employee, hb, hh, mapE, map_management]

/-- C8 witness: `claim8_amended` at an employee with valid date objects and
empty source tables. -/
theorem claim8_witness :
    transform_for [] [] [] [] []
        ⟨7, Value.vdate 1970 1 1, "A", "B", "M", Value.vdate 1990 1 1⟩ =
      Except.ok { emp_no := 7, birth_date := Value.vdate 1970 1 1,
                  first_name := "A", last_name := "B", gender := "M",
                  hire_date := Value.vdate 1990 1 1, departments := [],
                  salaries := [], titles := [], management := none } :=
  claim8_amended ⟨7, Value.vdate 1970 1 1, "A", "B", "M", Value.vdate 1990 1 1⟩
    (Value.vdate 1970 1 1) (Value.vdate 1990 1 1) [] [] [] [] []
    rfl rfl rfl rfl rfl rfl

/-- C9 counterexample: the claim says exactly one employee document is
produced per distinct emp_no. The `DB_Migration` script's aggregation loop
appends one document per source row without any index, so two source rows
with emp_no 1 produce two documents with emp_no 1. -/
theorem claim9_counterexample :
    (aggregate_employees
        [⟨1, Value.vdate 1980 1 1, "A", "B", "M", Value.vdate 1999 2 2⟩,
         ⟨1, Value.vdate 1981 1 1, "A2", "B2", "M", Value.vdate 1999 2 2⟩]
        [] [] [] [] []).length = 2 ∧
    (aggregate_employees
        [⟨1, Value.vdate 1980 1 1, "A", "B", "M", Value.vdate 1999 2 2⟩,
         ⟨1, Value.vdate 1981 1 1, "A2", "B2", "M", Value.vdate 1999 2 2⟩]
        [] [] [] [] []).map EmpDoc.emp_no = [1, 1] := by decide

/-- C9 amended: in `ETLPipeline.transform` the employee dict has
no duplicate keys (exactly one entry per distinct emp_no), its key set is
exactly the set of source emp_no values, and the entry stored for a key is
the transform of the last source row with that emp_no (last-wins); the
`DB_Migration` script's aggregation loop, by contrast, has no such index and
emits one document per source row, so duplicate emp_no rows yield duplicate
documents (see the counterexample). -/
theorem claim9_amended :
    (∀ rows : List EmployeeRow,
      ((etl_employee_index rows).map Prod.fst).Nodup) ∧
    (∀ (rows : List EmployeeRow) (q : Nat),
      q ∈ (etl_employee_index rows).map Prod.fst ↔ ∃ r ∈ rows, r.emp_no = q) ∧
    (∀ (rows : List EmployeeRow) (q : Nat),
      alookup (etl_employee_index rows) q =
        ((rows.filter (fun r => r.emp_no == q)).getLast?).map
          transform_employee_flat) :=
  ⟨etl_employee_index_keys_nodup, mem_keys_etl_employee_index,
   alookup_etl_employee_index⟩

end DBMigration
